import Mathlib

/-!
Shallow embedding of `src/hal/src/sercom/dma.rs` (SERCOM DMA transfers for the
atsamd HAL) and proofs about it.

Addresses are modelled as natural numbers (raw pointer values).  Machine
pointers of element type `T : Beat` are tracked through an explicit beat width
(1, 2 or 4 bytes), so that pointer arithmetic (`slice.as_ptr_range`, pointer
casts to `usize`) is faithful to the Rust semantics.  Hardware side effects
performed by the entry points (interrupt-enable writes, descriptor commit /
channel begin, issuing the I2C start condition) are modelled as an ordered
event trace; a failed `assert!` is modelled by returning the pair
`([], false)` (no events emitted, abnormal termination), while a normal return
is `(trace, true)`.
-/

namespace AtsamdSercomDma

/-- Width in bytes of a `Beat` type (the Rust `Beat` trait is implemented for
`u8`, `u16` and `u32`). -/
inductive BeatWidth where
  | b1
  | b2
  | b4
  deriving DecidableEq

/-- `core::mem::size_of::<T>()` for a beat type of the given width. -/
def BeatWidth.size : BeatWidth → Nat
  | .b1 => 1
  | .b2 => 2
  | .b4 => 4

/-- Embeds `SharedSliceBuffer<'a, T>`: the `ptrs : Range<*mut T>` field is the
pair of raw addresses produced by `slice.as_ptr_range()`. -/
structure SharedSliceBuffer (w : BeatWidth) where
  ptrStart : Nat
  ptrEnd : Nat
  deriving DecidableEq

namespace SharedSliceBuffer

/-- Embeds `SharedSliceBuffer::from_slice` (via `from_slice_unchecked`): for a
slice of `n` elements of beat width `w` whose data starts at address `base`,
`as_ptr_range()` yields `base .. base + n * size_of::<T>()`. -/
def from_slice (w : BeatWidth) (base n : Nat) : SharedSliceBuffer w :=
  { ptrStart := base, ptrEnd := base + n * w.size }

/-- Embeds `Buffer::buffer_len` for `SharedSliceBuffer`:
`self.ptrs.end as usize - self.ptrs.start as usize` (a raw byte difference). -/
def buffer_len {w : BeatWidth} (b : SharedSliceBuffer w) : Nat :=
  b.ptrEnd - b.ptrStart

/-- Embeds `Buffer::incrementing` for `SharedSliceBuffer`:
`self.buffer_len() > 1`. -/
def incrementing {w : BeatWidth} (b : SharedSliceBuffer w) : Bool :=
  decide (b.buffer_len > 1)

/-- Embeds `Buffer::dma_ptr` for `SharedSliceBuffer`: `end` of the captured
range when incrementing, `start` otherwise. -/
def dma_ptr {w : BeatWidth} (b : SharedSliceBuffer w) : Nat :=
  if b.incrementing then b.ptrEnd else b.ptrStart

end SharedSliceBuffer

/-- Embeds `SercomPtr<T>`: a raw pointer to a SERCOM data register. -/
structure SercomPtr (w : BeatWidth) where
  addr : Nat
  deriving DecidableEq

namespace SercomPtr

/-- Embeds `Buffer::dma_ptr` for `SercomPtr`: returns the wrapped pointer. -/
def dma_ptr {w : BeatWidth} (p : SercomPtr w) : Nat :=
  p.addr

/-- Embeds `Buffer::incrementing` for `SercomPtr`: constantly `false`. -/
def incrementing {w : BeatWidth} (_ : SercomPtr w) : Bool :=
  false

/-- Embeds `Buffer::buffer_len` for `SercomPtr`: constantly `1`. -/
def buffer_len {w : BeatWidth} (_ : SercomPtr w) : Nat :=
  1

end SercomPtr

/-- Embeds the `I2c<C>` peripheral as a DMA `Buffer` (`i2c::Word` is `u8`,
beat width 1): only its data-register pointer matters here. -/
structure I2cPeriph where
  data_ptr : Nat
  deriving DecidableEq

namespace I2cPeriph

/-- Embeds `Buffer::dma_ptr` for `I2c<C>`: `self.data_ptr()`. -/
def dma_ptr (i : I2cPeriph) : Nat :=
  i.data_ptr

/-- Embeds `Buffer::incrementing` for `I2c<C>`: constantly `false`. -/
def incrementing (_ : I2cPeriph) : Bool :=
  false

/-- Embeds `Buffer::buffer_len` for `I2c<C>`: constantly `1`. -/
def buffer_len (_ : I2cPeriph) : Nat :=
  1

end I2cPeriph

/-- Embeds the `Uart<C, D>` peripheral as a DMA `Buffer` (`C::Word : Beat` of
width `w`). -/
structure UartPeriph (w : BeatWidth) where
  data_ptr : Nat
  deriving DecidableEq

namespace UartPeriph

/-- Embeds `Buffer::dma_ptr` for `Uart<C, D>`: `self.data_ptr()`. -/
def dma_ptr {w : BeatWidth} (u : UartPeriph w) : Nat :=
  u.data_ptr

/-- Embeds `Buffer::incrementing` for `Uart<C, D>`: constantly `false`. -/
def incrementing {w : BeatWidth} (_ : UartPeriph w) : Bool :=
  false

/-- Embeds `Buffer::buffer_len` for `Uart<C, D>`: constantly `1`. -/
def buffer_len {w : BeatWidth} (_ : UartPeriph w) : Nat :=
  1

end UartPeriph

/-- Embeds the `Spi<C, A>` peripheral as a DMA `Buffer` (`C::Word : Beat` of
width `w`). -/
structure SpiPeriph (w : BeatWidth) where
  data_ptr : Nat
  deriving DecidableEq

namespace SpiPeriph

/-- Embeds `Buffer::dma_ptr` for `Spi<C, A>`: `self.data_ptr()`. -/
def dma_ptr {w : BeatWidth} (s : SpiPeriph w) : Nat :=
  s.data_ptr

/-- Embeds `Buffer::incrementing` for `Spi<C, A>`: constantly `false`. -/
def incrementing {w : BeatWidth} (_ : SpiPeriph w) : Bool :=
  false

/-- Embeds `Buffer::buffer_len` for `Spi<C, A>`: constantly `1`. -/
def buffer_len {w : BeatWidth} (_ : SpiPeriph w) : Nat :=
  1

end SpiPeriph

/-- The chip families distinguished by the `hal_cfg` attributes in the source
(`d11`, `d21`, `d5x`). -/
inductive ChipFamily where
  | d11
  | d21
  | d5x
  deriving DecidableEq

/-- Embeds `dmac::TriggerAction` (only the two variants the source selects). -/
inductive TriggerAction where
  | beat
  | burst
  deriving DecidableEq

/-- Embeds the `hal_cfg` selection appearing in every SERCOM wrapper entry
point: `#[hal_cfg("sercom0-d5x")] let trigger_action = TriggerAction::Burst;`
`#[hal_cfg(any("sercom0-d11", "sercom0-d21"))] let trigger_action =
TriggerAction::Beat;`. -/
def sercomTriggerAction : ChipFamily → TriggerAction
  | .d5x => .burst
  | .d11 => .beat
  | .d21 => .beat

/-- Embeds the `hal_cfg` selection appearing in the low-level engine
(`read_dma_linked` / `write_dma_linked`): `#[hal_cfg("dmac-d5x")] Burst;`
`#[hal_cfg(any("dmac-d11", "dmac-d21"))] Beat;`. -/
def dmacTriggerAction : ChipFamily → TriggerAction
  | .d5x => .burst
  | .d11 => .beat
  | .d21 => .beat

/-- A SERCOM instance's DMA trigger source identifiers
(`S::DMA_RX_TRIGGER` and `S::DMA_TX_TRIGGER`). -/
structure SercomInst where
  dmaRxTrigger : Nat
  dmaTxTrigger : Nat
  deriving DecidableEq

/-- Hardware-visible side effects performed by the DMA entry points, in
program order:
- `enableInterrupts`: `channel.enable_interrupts(InterruptFlags::new().with_tcmpl(true))`;
- `beginTransfer`: `dmac::Transfer::new_unchecked(..).with_waker(..).begin(trigger, action)`
  (descriptor commit plus channel enable in the dmac layer);
- `startDmaRead` / `startDmaWrite`: `start_dma_read(address, len as u8)` /
  `start_dma_write(address, len as u8)` — the I2C start condition. -/
inductive Event where
  | enableInterrupts (tcmpl : Bool)
  | beginTransfer (trigger : Nat) (action : TriggerAction)
  | startDmaRead (address : Nat) (len : Nat)
  | startDmaWrite (address : Nat) (len : Nat)
  deriving DecidableEq

/-- Embeds the token type `I2cBusReady`. -/
structure I2cBusReady where
  deriving DecidableEq

/-- Embeds `sercom::i2c::Error` (the typed error returned by the bus-status
check). -/
inductive I2cError where
  | busError
  | arbitrationLost
  | lengthError
  | nack
  | timeout
  deriving DecidableEq

/-- Modelled from the spec: `I2c::check_bus_status` lives in the i2c module,
which is not under `src/`; per the spec it is an explicit readiness check that
succeeds exactly when the bus is idle and otherwise surfaces a typed error,
letting the caller retry.  The bus condition is abstracted as
`busState : Option I2cError` (`none` = idle; `some e` = not idle, check
reports `e`). -/
def check_bus_status (busState : Option I2cError) : Except I2cError Unit :=
  match busState with
  | none => .ok ()
  | some e => .error e

/-- Embeds `I2c::init_dma_transfer`:
`self.check_bus_status()?; Ok(I2cBusReady)`. -/
def init_dma_transfer (busState : Option I2cError) : Except I2cError I2cBusReady :=
  match check_bus_status busState with
  | .ok _ => .ok ⟨⟩
  | .error e => .error e

/-- Embeds `I2c::receive_with_dma`.  `len` is `buf.buffer_len()`.  The
result is the emitted event trace paired with `true` on normal return; a
failed `assert!(len > 0 && len <= 255)` terminates abnormally before any
hardware write, modelled as `([], false)`.  `len as u8` is the truncating
cast, modelled as `% 256`. -/
def i2c_receive_with_dma (fam : ChipFamily) (s : SercomInst) (address : Nat)
    (len : Nat) (_token : I2cBusReady) : List Event × Bool :=
  if 0 < len ∧ len ≤ 255 then
    ([Event.enableInterrupts true,
      Event.beginTransfer s.dmaRxTrigger (sercomTriggerAction fam),
      Event.startDmaRead address (len % 256)], true)
  else
    ([], false)

/-- Embeds `I2c::send_with_dma` (same shape as receive, with the TX trigger
and `start_dma_write`). -/
def i2c_send_with_dma (fam : ChipFamily) (s : SercomInst) (address : Nat)
    (len : Nat) (_token : I2cBusReady) : List Event × Bool :=
  if 0 < len ∧ len ≤ 255 then
    ([Event.enableInterrupts true,
      Event.beginTransfer s.dmaTxTrigger (sercomTriggerAction fam),
      Event.startDmaWrite address (len % 256)], true)
  else
    ([], false)

/-- Embeds `Uart::receive_with_dma`: no length check, enable interrupts then
begin the transfer with the RX trigger. -/
def uart_receive_with_dma (fam : ChipFamily) (s : SercomInst)
    (_bufLen : Nat) : List Event × Bool :=
  ([Event.enableInterrupts true,
    Event.beginTransfer s.dmaRxTrigger (sercomTriggerAction fam)], true)

/-- Embeds `Uart::send_with_dma`: no length check, enable interrupts then
begin the transfer with the TX trigger. -/
def uart_send_with_dma (fam : ChipFamily) (s : SercomInst)
    (_bufLen : Nat) : List Event × Bool :=
  ([Event.enableInterrupts true,
    Event.beginTransfer s.dmaTxTrigger (sercomTriggerAction fam)], true)

/-- Embeds `Spi::send_with_dma`: no length check, enable interrupts then begin
the transfer with the TX trigger. -/
def spi_send_with_dma (fam : ChipFamily) (s : SercomInst)
    (_bufLen : Nat) : List Event × Bool :=
  ([Event.enableInterrupts true,
    Event.beginTransfer s.dmaTxTrigger (sercomTriggerAction fam)], true)

/-- Embeds `Spi::receive_with_dma`: no length check, enable interrupts then
begin the transfer with the RX trigger. -/
def spi_receive_with_dma (fam : ChipFamily) (s : SercomInst)
    (_bufLen : Nat) : List Event × Bool :=
  ([Event.enableInterrupts true,
    Event.beginTransfer s.dmaRxTrigger (sercomTriggerAction fam)], true)

/-- The `Buffer`-trait view of an arbitrary buffer argument `B : Buffer`, as
the dmac layer consumes it: `(dma_ptr, incrementing, buffer_len)`. -/
structure BufView where
  ptr : Nat
  inc : Bool
  len : Nat
  deriving DecidableEq

/-- View of a `SercomPtr` through its `Buffer` implementation. -/
def SercomPtr.toView {w : BeatWidth} (p : SercomPtr w) : BufView :=
  { ptr := p.dma_ptr, inc := p.incrementing, len := p.buffer_len }

/-- View of a `SharedSliceBuffer` through its `Buffer` implementation. -/
def SharedSliceBuffer.toView {w : BeatWidth} (b : SharedSliceBuffer w) : BufView :=
  { ptr := b.dma_ptr, inc := b.incrementing, len := b.buffer_len }

/-- The transfer leg committed by `Channel::transfer_unchecked` (the dmac
"run one leg" primitive): source, destination, trigger source, trigger
action and optional link to a next descriptor (its address). -/
structure TransferLeg where
  source : BufView
  dest : BufView
  trigSrc : Nat
  action : TriggerAction
  link : Option Nat
  deriving DecidableEq

/-- Embeds the call `channel.as_mut().transfer_unchecked(src, dst, trigger,
trigger_action, next)`: records the armed leg. -/
def transfer_unchecked (src dst : BufView) (trig : Nat) (act : TriggerAction)
    (next : Option Nat) : TransferLeg :=
  { source := src, dest := dst, trigSrc := trig, action := act, link := next }

/-- Embeds `read_dma_linked<T, B, S>`: picks the dmac-family trigger action,
then `transfer_unchecked(&mut sercom_ptr, buf, S::DMA_RX_TRIGGER,
trigger_action, next)`. -/
def read_dma_linked {w : BeatWidth} (fam : ChipFamily) (s : SercomInst)
    (sercom_ptr : SercomPtr w) (buf : BufView) (next : Option Nat) : TransferLeg :=
  transfer_unchecked sercom_ptr.toView buf s.dmaRxTrigger (dmacTriggerAction fam) next

/-- Embeds `read_dma<T, B, S>`: `read_dma_linked(channel, sercom_ptr, buf,
None)`. -/
def read_dma {w : BeatWidth} (fam : ChipFamily) (s : SercomInst)
    (sercom_ptr : SercomPtr w) (buf : BufView) : TransferLeg :=
  read_dma_linked fam s sercom_ptr buf none

/-- Embeds `write_dma_linked<T, B, S>`: picks the dmac-family trigger action,
then `transfer_unchecked(buf, &mut sercom_ptr, S::DMA_TX_TRIGGER,
trigger_action, next)`. -/
def write_dma_linked {w : BeatWidth} (fam : ChipFamily) (s : SercomInst)
    (sercom_ptr : SercomPtr w) (buf : BufView) (next : Option Nat) : TransferLeg :=
  transfer_unchecked buf sercom_ptr.toView s.dmaTxTrigger (dmacTriggerAction fam) next

/-- Embeds `write_dma<T, B, S>`: `write_dma_linked(channel, sercom_ptr, buf,
None)`. -/
def write_dma {w : BeatWidth} (fam : ChipFamily) (s : SercomInst)
    (sercom_ptr : SercomPtr w) (buf : BufView) : TransferLeg :=
  write_dma_linked fam s sercom_ptr buf none

/-- Events that arm the DMA transfer: the interrupt-enable write and the
descriptor-commit/transfer-begin step. -/
def isArmEvent : Event → Bool
  | .enableInterrupts _ => true
  | .beginTransfer _ _ => true
  | _ => false

/-- Events that issue the I2C start condition. -/
def isStartEvent : Event → Bool
  | .startDmaRead _ _ => true
  | .startDmaWrite _ _ => true
  | _ => false

/-- The trigger actions occurring in a trace (from its `beginTransfer`
events). -/
def traceActions (t : List Event) : List TriggerAction :=
  t.filterMap fun e =>
    match e with
    | .beginTransfer _ a => some a
    | _ => none

/-- Claim C1 fails on the code: a shared-slice adapter over a region of
N = 1 beats of width 2 bytes (a one-element `u16` slice, here at base address
100) reports `buffer_len() = 2` — the raw byte difference of the captured
range, never divided by the beat size — and `incrementing() = true`, where the
claim requires length 1 and incrementing false. -/
theorem C1_shared_slice_byte_length_bug :
    (SharedSliceBuffer.from_slice .b2 100 1).buffer_len = 2 ∧
    (SharedSliceBuffer.from_slice .b2 100 1).incrementing = true ∧
    (SharedSliceBuffer.from_slice .b4 100 3).buffer_len = 12 := by
  decide

/-- Claim C2: an I2C `send_with_dma` / `receive_with_dma` call with buffer
length L in [1, 255] passes the length check and arms the transfer (interrupt
enable, descriptor commit/begin, start condition, normal return); with L = 0
or L > 255 it terminates abnormally with no hardware write at all — in
particular before the channel's interrupt-enable write. -/
theorem C2_i2c_length_check (fam : ChipFamily) (s : SercomInst)
    (address L : Nat) (tok : I2cBusReady) :
    (1 ≤ L ∧ L ≤ 255 →
      i2c_receive_with_dma fam s address L tok =
        ([Event.enableInterrupts true,
          Event.beginTransfer s.dmaRxTrigger (sercomTriggerAction fam),
          Event.startDmaRead address (L % 256)], true) ∧
      i2c_send_with_dma fam s address L tok =
        ([Event.enableInterrupts true,
          Event.beginTransfer s.dmaTxTrigger (sercomTriggerAction fam),
          Event.startDmaWrite address (L % 256)], true)) ∧
    (L = 0 ∨ 255 < L →
      i2c_receive_with_dma fam s address L tok = ([], false) ∧
      i2c_send_with_dma fam s address L tok = ([], false)) := by
  constructor
  · intro h
    have hc : 0 < L ∧ L ≤ 255 := ⟨h.1, h.2⟩
    constructor
    · simp only [i2c_receive_with_dma, if_pos hc]
    · simp only [i2c_send_with_dma, if_pos hc]
  · intro h
    have hc : ¬(0 < L ∧ L ≤ 255) := by omega
    constructor
    · simp only [i2c_receive_with_dma, if_neg hc]
    · simp only [i2c_send_with_dma, if_neg hc]

/-- Witness for C2 at concrete inputs: L = 3 arms the transfer, L = 0
terminates abnormally with no events. -/
theorem C2_witness :
    i2c_receive_with_dma .d21 ⟨1, 2⟩ 10 3 ⟨⟩ =
      ([Event.enableInterrupts true,
        Event.beginTransfer 1 (sercomTriggerAction .d21),
        Event.startDmaRead 10 (3 % 256)], true) ∧
    i2c_send_with_dma .d21 ⟨1, 2⟩ 10 0 ⟨⟩ = ([], false) :=
  ⟨((C2_i2c_length_check .d21 ⟨1, 2⟩ 10 3 ⟨⟩).1 (by decide)).1,
   ((C2_i2c_length_check .d21 ⟨1, 2⟩ 10 0 ⟨⟩).2 (by decide)).2⟩

/-- Claim C3: in every normally-returning I2C `receive_with_dma` or
`send_with_dma` call, every arming event (interrupt enable, descriptor
commit/transfer begin) occurs strictly before every start-condition event
(`start_dma_read` / `start_dma_write`) in the emitted trace. -/
theorem C3_arm_before_start (fam : ChipFamily) (s : SercomInst)
    (address L : Nat) (tok : I2cBusReady) (t : List Event)
    (h : i2c_receive_with_dma fam s address L tok = (t, true) ∨
         i2c_send_with_dma fam s address L tok = (t, true)) :
    ∀ i j (hi : i < t.length) (hj : j < t.length),
      isArmEvent (t.get ⟨i, hi⟩) = true →
      isStartEvent (t.get ⟨j, hj⟩) = true → i < j := by
  have ht : t = [Event.enableInterrupts true,
      Event.beginTransfer s.dmaRxTrigger (sercomTriggerAction fam),
      Event.startDmaRead address (L % 256)] ∨
      t = [Event.enableInterrupts true,
      Event.beginTransfer s.dmaTxTrigger (sercomTriggerAction fam),
      Event.startDmaWrite address (L % 256)] := by
    rcases h with h | h
    · left
      unfold i2c_receive_with_dma at h
      split at h
      · exact (Prod.mk.injEq _ _ _ _ ▸ h).1.symm
      · exact absurd (Prod.mk.injEq _ _ _ _ ▸ h).2 (by simp)
    · right
      unfold i2c_send_with_dma at h
      split at h
      · exact (Prod.mk.injEq _ _ _ _ ▸ h).1.symm
      · exact absurd (Prod.mk.injEq _ _ _ _ ▸ h).2 (by simp)
  intro i j hi hj harm hstart
  rcases ht with ht | ht <;> subst ht <;>
    simp only [List.length_cons, List.length_nil] at hi hj <;>
    interval_cases i <;> interval_cases j <;>
    simp_all [isArmEvent, isStartEvent]

/-- Witness for C3 at a concrete call: the begin event (index 1) precedes the
start event (index 2). -/
theorem C3_witness :
    i2c_receive_with_dma .d21 ⟨1, 2⟩ 10 3 ⟨⟩ =
      ([Event.enableInterrupts true,
        Event.beginTransfer 1 (sercomTriggerAction .d21),
        Event.startDmaRead 10 (3 % 256)], true) ∧ (1 : Nat) < 2 := by
  refine ⟨by decide, ?_⟩
  exact C3_arm_before_start .d21 ⟨1, 2⟩ 10 3 ⟨⟩
    [Event.enableInterrupts true,
     Event.beginTransfer 1 (sercomTriggerAction .d21),
     Event.startDmaRead 10 (3 % 256)] (Or.inl (by decide))
    1 2 (by decide) (by decide) (by decide) (by decide)

/-- Claim C4: in every DMA entry point and in the low-level engine, the
trigger action is a function of the chip family alone — every action occurring
in an emitted trace equals `sercomTriggerAction fam`, the engine always passes
`dmacTriggerAction fam`, the two selections agree, and the action is Burst
exactly for the d5x family — independent of every runtime input. -/
theorem C4_trigger_action_fixed (fam : ChipFamily) (s : SercomInst)
    (address L : Nat) (tok : I2cBusReady) (w : BeatWidth) (p : SercomPtr w)
    (buf : BufView) (next : Option Nat) :
    (∀ a ∈ traceActions (i2c_receive_with_dma fam s address L tok).1,
      a = sercomTriggerAction fam) ∧
    (∀ a ∈ traceActions (i2c_send_with_dma fam s address L tok).1,
      a = sercomTriggerAction fam) ∧
    (∀ a ∈ traceActions (uart_receive_with_dma fam s L).1,
      a = sercomTriggerAction fam) ∧
    (∀ a ∈ traceActions (uart_send_with_dma fam s L).1,
      a = sercomTriggerAction fam) ∧
    (∀ a ∈ traceActions (spi_send_with_dma fam s L).1,
      a = sercomTriggerAction fam) ∧
    (∀ a ∈ traceActions (spi_receive_with_dma fam s L).1,
      a = sercomTriggerAction fam) ∧
    (read_dma_linked fam s p buf next).action = dmacTriggerAction fam ∧
    (write_dma_linked fam s p buf next).action = dmacTriggerAction fam ∧
    sercomTriggerAction fam = dmacTriggerAction fam ∧
    (sercomTriggerAction fam = .burst ↔ fam = .d5x) := by
  refine ⟨?_, ?_, ?_, ?_, ?_, ?_, rfl, rfl, by cases fam <;> rfl,
    by cases fam <;> simp [sercomTriggerAction]⟩ <;>
    · intro a ha
      simp only [i2c_receive_with_dma, i2c_send_with_dma,
        uart_receive_with_dma, uart_send_with_dma, spi_send_with_dma,
        spi_receive_with_dma] at ha
      first
        | (split at ha <;> simp [traceActions] at ha <;> exact ha)
        | (simp [traceActions] at ha; exact ha)

/-- Witness for C4 at a concrete call: the action in the UART receive trace on
the d5x family is Burst. -/
theorem C4_witness :
    (sercomTriggerAction .d5x ∈
      traceActions (uart_receive_with_dma .d5x ⟨1, 2⟩ 4).1) ∧
    sercomTriggerAction .d5x = sercomTriggerAction .d5x :=
  ⟨by decide,
   (C4_trigger_action_fixed .d5x ⟨1, 2⟩ 10 4 ⟨⟩ .b1 ⟨7⟩ ⟨0, false, 1⟩
      none).2.2.1 (sercomTriggerAction .d5x) (by decide)⟩

/-- Claim C5: every fixed-register adapter — the `SercomPtr` wrapper and the
peripheral `Buffer` implementations for `I2c`, `Uart` and `Spi` — has
`incrementing() = false` and `buffer_len() = 1`, for every beat width. -/
theorem C5_register_adapters (w : BeatWidth) (p : SercomPtr w) (i : I2cPeriph)
    (u : UartPeriph w) (sp : SpiPeriph w) :
    p.incrementing = false ∧ p.buffer_len = 1 ∧
    i.incrementing = false ∧ i.buffer_len = 1 ∧
    u.incrementing = false ∧ u.buffer_len = 1 ∧
    sp.incrementing = false ∧ sp.buffer_len = 1 :=
  ⟨rfl, rfl, rfl, rfl, rfl, rfl, rfl, rfl⟩

/-- Claim C6: for every chip family, SERCOM instance, register adapter and
memory buffer, `read_dma` arms exactly the leg `read_dma_linked` arms with no
next descriptor, and `write_dma` likewise equals `write_dma_linked` applied
with `none`. -/
theorem C6_unlinked_equals_linked_none (w : BeatWidth) (fam : ChipFamily)
    (s : SercomInst) (p : SercomPtr w) (buf : BufView) :
    read_dma fam s p buf = read_dma_linked fam s p buf none ∧
    write_dma fam s p buf = write_dma_linked fam s p buf none :=
  ⟨rfl, rfl⟩

/-- Claim C7: `read_dma_linked` arms a leg whose source is the register
adapter and whose destination is the memory buffer, with the receive trigger
id; `write_dma_linked` arms a leg whose source is the memory buffer and whose
destination is the register adapter, with the transmit trigger id (and both
propagate the optional link). -/
theorem C7_read_write_directions (w : BeatWidth) (fam : ChipFamily)
    (s : SercomInst) (p : SercomPtr w) (buf : BufView) (next : Option Nat) :
    (read_dma_linked fam s p buf next).source = p.toView ∧
    (read_dma_linked fam s p buf next).dest = buf ∧
    (read_dma_linked fam s p buf next).trigSrc = s.dmaRxTrigger ∧
    (read_dma_linked fam s p buf next).link = next ∧
    (write_dma_linked fam s p buf next).source = buf ∧
    (write_dma_linked fam s p buf next).dest = p.toView ∧
    (write_dma_linked fam s p buf next).trigSrc = s.dmaTxTrigger ∧
    (write_dma_linked fam s p buf next).link = next :=
  ⟨rfl, rfl, rfl, rfl, rfl, rfl, rfl, rfl⟩

/-- Claim C8 as stated is refuted on its uniqueness conjunct: obtaining the
token from `init_dma_transfer` is not the only way, because `I2cBusReady` is
declared `pub struct I2cBusReady;` (dma.rs:119), a public unit struct whose
constructor is as public as the type, so any caller can build the token
directly.  Concretely: on a bus state where the bus-status check fails — so
`init_dma_transfer` returns an error and yields no token — a directly
constructed token `⟨⟩` is nevertheless accepted by `send_with_dma`, which
arms the transfer normally. -/
theorem C8_token_freely_constructible :
    init_dma_transfer (some .busError) = .error .busError ∧
    (i2c_send_with_dma .d21 ⟨1, 2⟩ 10 3 ⟨⟩).2 = true :=
  ⟨rfl, by decide⟩

/-- Claim C8 (amended): `init_dma_transfer` returns `Ok(I2cBusReady)` exactly
when the bus-status check succeeds, and when the check fails it returns the
very error the check produced.  (The original claim's further conjunct — that
this is the only way to obtain the token — fails, since the token is a public
unit struct a caller can construct directly; `init_dma_transfer` is the
intended way, not the only one.) -/
theorem C8_init_dma_transfer (busState : Option I2cError) :
    (init_dma_transfer busState = .ok ⟨⟩ ↔
      check_bus_status busState = .ok ()) ∧
    (∀ e : I2cError, check_bus_status busState = .error e →
      init_dma_transfer busState = .error e) := by
  cases busState <;> simp [init_dma_transfer, check_bus_status]

/-- Witness for C8 at a concrete bus state: a non-idle bus reporting a bus
error yields that same error from `init_dma_transfer`. -/
theorem C8_witness :
    check_bus_status (some .busError) = .error .busError ∧
    init_dma_transfer (some .busError) = .error .busError :=
  ⟨rfl, (C8_init_dma_transfer (some .busError)).2 .busError rfl⟩

/-- Claim C9: the UART and SPI `send_with_dma` / `receive_with_dma` entry
points perform no buffer-length validation: for every buffer length,
including 0, they enable the transfer-complete interrupt and arm the transfer,
returning normally (flag `true`) — unlike the I2C entry points, which reject
length 0 abnormally. -/
theorem C9_uart_spi_no_length_check (fam : ChipFamily) (s : SercomInst)
    (L address : Nat) (tok : I2cBusReady) :
    uart_receive_with_dma fam s L =
      ([Event.enableInterrupts true,
        Event.beginTransfer s.dmaRxTrigger (sercomTriggerAction fam)], true) ∧
    uart_send_with_dma fam s L =
      ([Event.enableInterrupts true,
        Event.beginTransfer s.dmaTxTrigger (sercomTriggerAction fam)], true) ∧
    spi_send_with_dma fam s L =
      ([Event.enableInterrupts true,
        Event.beginTransfer s.dmaTxTrigger (sercomTriggerAction fam)], true) ∧
    spi_receive_with_dma fam s L =
      ([Event.enableInterrupts true,
        Event.beginTransfer s.dmaRxTrigger (sercomTriggerAction fam)], true) ∧
    i2c_receive_with_dma fam s address 0 tok = ([], false) ∧
    i2c_send_with_dma fam s address 0 tok = ([], false) := by
  refine ⟨rfl, rfl, rfl, rfl, ?_, ?_⟩ <;>
    simp [i2c_receive_with_dma, i2c_send_with_dma]

/-- Claim C10: a shared-slice adapter's `dma_ptr()` returns the captured end
address when `incrementing()` is true and the captured start address when it
is false. -/
theorem C10_dma_ptr_selects_range_end (w : BeatWidth)
    (b : SharedSliceBuffer w) :
    (b.incrementing = true → b.dma_ptr = b.ptrEnd) ∧
    (b.incrementing = false → b.dma_ptr = b.ptrStart) := by
  constructor <;> intro h <;> simp [SharedSliceBuffer.dma_ptr, h]

/-- Witness for C10 at a concrete adapter: over three one-byte beats starting
at address 0, `incrementing()` is true and `dma_ptr()` is the end address 3;
over one beat it is false and `dma_ptr()` is the start address 5. -/
theorem C10_witness :
    (SharedSliceBuffer.from_slice .b1 0 3).incrementing = true ∧
    (SharedSliceBuffer.from_slice .b1 0 3).dma_ptr =
      (SharedSliceBuffer.from_slice .b1 0 3).ptrEnd ∧
    (SharedSliceBuffer.from_slice .b1 5 1).incrementing = false ∧
    (SharedSliceBuffer.from_slice .b1 5 1).dma_ptr =
      (SharedSliceBuffer.from_slice .b1 5 1).ptrStart :=
  ⟨by decide,
   (C10_dma_ptr_selects_range_end .b1 (SharedSliceBuffer.from_slice .b1 0 3)).1
     (by decide),
   by decide,
   (C10_dma_ptr_selects_range_end .b1 (SharedSliceBuffer.from_slice .b1 5 1)).2
     (by decide)⟩

end AtsamdSercomDma
